import Mathlib

/-!
Verification of `@xcvzmoon/express-utils` against its specification.

The development shallowly embeds the three components of the package:
the Zod-based schema validator adapters (`readValidatedQuery`,
`readValidatedParams`), the two multipart extractors
(`readMultipartFormData` on busboy and `getMultipartFormData` on
@fastify/busboy), and the Server-Sent-Events channel
(`createServerSentEvent`).  Effectful JavaScript is embedded as pure
functions from explicit inputs (the request's relevant fields, the
decoder's deliveries, the transport's capability flags) to explicit
outcome values and event traces.
-/

namespace ExpressUtils

/-! Component: Schema validator adapter

`schema.safeParse(input)` in Zod returns either a success carrying the
parsed data or a failure carrying a `ZodError`; the adapter reads the
error's `message` and `cause` (the underlying issue list).  The schema
is duck-typed, so it is embedded as a record holding the `safeParse`
function, generic over the input type `I`, the issue-list type `C`
carried on `cause`, and the parsed-value type `A`. -/

/-- The error object of a failed Zod parse: `message` and `cause`
(the underlying issue list, of abstract type `C`). -/
structure ZodError (C : Type) where
  message : String
  cause : C
  deriving Repr, DecidableEq

/-- Result of `schema.safeParse(input)`. -/
inductive SafeParseResult (C A : Type) where
  | success (data : A)
  | failure (error : ZodError C)
  deriving Repr, DecidableEq

/-- A duck-typed Zod schema: anything exposing `safeParse`. -/
structure ZodSchema (I C A : Type) where
  safeParse : I → SafeParseResult C A

/-- The fields of an Express request the validator adapters read:
`req.query` and `req.params`. -/
structure VRequest (Q P : Type) where
  query : Q
  params : P

/-- The optional `options` argument: `{ safe?: boolean }`. -/
structure ValidateOptions where
  safe : Option Bool
  deriving Repr, DecidableEq

/-- JavaScript truthiness of `options?.safe` (absent object and absent
or `false` field are falsy). -/
def optSafe (options : Option ValidateOptions) : Bool :=
  (options.bind (fun o => o.safe)).getD false

/-- Observable outcome of one adapter call: a plain value returned
(unsafe success), the whole safe-parse result returned (safe mode), or
a thrown `Error` carrying `message` and `cause`. -/
inductive ValidateResult (C A : Type) where
  | value (data : A)
  | safeResult (r : SafeParseResult C A)
  | thrown (message : String) (cause : C)
  deriving Repr, DecidableEq

/-- Embedding of `readValidatedQuery` (src/read-validated-query.ts):
run `schema.safeParse(req.query)`; if `options?.safe` return the raw
result; otherwise throw `new Error(message, { cause })` on failure and
return `result.data` on success. -/
def readValidatedQuery (req : VRequest Q P) (schema : ZodSchema Q C A)
    (options : Option ValidateOptions) : ValidateResult C A :=
  let result := schema.safeParse req.query
  if optSafe options then
    ValidateResult.safeResult result
  else
    match result with
    | SafeParseResult.failure e => ValidateResult.thrown e.message e.cause
    | SafeParseResult.success d => ValidateResult.value d

/-- Embedding of `readValidatedParams` (src/read-validated-params.ts):
identical to `readValidatedQuery` but reads `req.params`. -/
def readValidatedParams (req : VRequest Q P) (schema : ZodSchema P C A)
    (options : Option ValidateOptions) : ValidateResult C A :=
  let result := schema.safeParse req.params
  if optSafe options then
    ValidateResult.safeResult result
  else
    match result with
    | SafeParseResult.failure e => ValidateResult.thrown e.message e.cause
    | SafeParseResult.success d => ValidateResult.value d

/-! Component: Multipart extractors

Both extractors check the content-type header, then pipe the request
byte stream into a streaming multipart decoder (busboy respectively
@fastify/busboy).  The decoder is an external collaborator, so it is
embedded as the sequence of parts it delivers for the request plus the
body-level outcome it reports (`finish` or `error`).  Each file part
carries the byte chunks its stream delivers (in arrival order, bytes
as `Nat`) and how its stream ends (`end` or `error`). -/

/-- A JavaScript value used as a promise rejection: either an `Error`
object with a message or some non-`Error` value. -/
inductive JsValue where
  | errorObj (message : String)
  | nonError (description : String)
  deriving Repr, DecidableEq

/-- How a file-part stream settles: `end` fires, or `error` fires with
a rejection value. -/
inductive StreamEnd where
  | ended
  | errored (e : JsValue)
  deriving Repr, DecidableEq

/-- The info the decoder reports for a file part (declared filename and
MIME type). -/
structure FileInfo where
  filename : String
  mimeType : String
  deriving Repr, DecidableEq

/-- One decoded part: a file part (field name, info, byte chunks in
arrival order, stream outcome) or a non-file field. -/
inductive Part where
  | file (name : String) (info : FileInfo) (chunks : List (List Nat))
      (outcome : StreamEnd)
  | field (name : String) (value : String)
  deriving Repr, DecidableEq

/-- The decoder's body-level outcome: the `finish` event, or an `error`
event for a malformed body. -/
inductive BodyOutcome where
  | finish
  | error (e : JsValue)
  deriving Repr, DecidableEq

/-- The request as the extractors observe it: the content-type header
(`req.headers['content-type']`, possibly absent) and what the decoder
delivers when the request stream is piped into it. -/
structure MultipartRequest where
  contentType : Option String
  parts : List Part
  bodyOutcome : BodyOutcome
  deriving Repr, DecidableEq

/-- The record type `MultipartFormData` shared by both source files:
`{ name, filename, mimeType, buffer }`, the buffer as a byte list. -/
structure MultipartFormData where
  name : String
  filename : String
  mimeType : String
  buffer : List Nat
  deriving Repr, DecidableEq

/-- JavaScript `s.startsWith(pat)` over character lists. -/
def listStartsWith : List Char → List Char → Bool
  | _, [] => true
  | [], _ :: _ => false
  | c :: cs, p :: ps => c == p && listStartsWith cs ps

/-- The literal token both `getContentType` helpers compare against. -/
def mpfdToken : List Char := "multipart/form-data".data

/-- `Buffer.concat(chunks)`: byte-wise concatenation of the chunks in
order. -/
def bufferConcat (chunks : List (List Nat)) : List Nat :=
  chunks.flatten

/-- `Promise.all` over already-settled promises: resolves with the list
of values if all fulfilled, otherwise rejects with the first rejection
in order. -/
def promiseAll : List (Except JsValue MultipartFormData) →
    Except JsValue (List MultipartFormData)
  | [] => Except.ok []
  | p :: ps =>
    match p with
    | Except.error e => Except.error e
    | Except.ok v =>
      match promiseAll ps with
      | Except.error e => Except.error e
      | Except.ok vs => Except.ok (v :: vs)

/-- The `.catch` wrapper both extractors apply to a `Promise.all`
rejection: `error instanceof Error ? error : new Error('An error
occurred while parsing multipart form data')`. -/
def wrapError : JsValue → JsValue
  | JsValue.errorObj m => JsValue.errorObj m
  | JsValue.nonError _ =>
      JsValue.errorObj "An error occurred while parsing multipart form data"

/-- Observable outcome of one extractor call: the `null` sentinel, a
resolved file list, or a rejected promise. -/
inductive ExtractResult where
  | notApplicable
  | resolved (files : List MultipartFormData)
  | rejected (e : JsValue)
  deriving Repr, DecidableEq

namespace ReadMPF

/-- Embedding of `getContentType` in src/read-multipart-form-data.ts:
`!contentType || contentType.charCodeAt(0) !== 109 ||
!contentType.startsWith('multipart/form-data') ? null : contentType`.
An empty string is falsy; `charCodeAt(0)` of the first character is its
code point (`NaN` for the unreachable empty case, modelled as the
`none` branch of `head?`). -/
def getContentType (contentType : Option String) : Option String :=
  match contentType with
  | none => none
  | some ct =>
    if ct.data = [] then none
    else if ¬ (ct.data.head?.map Char.toNat = some 109) then none
    else if ¬ (listStartsWith ct.data mpfdToken = true) then none
    else some ct

/-- The promise pushed for one busboy `file` event
(src/read-multipart-form-data.ts): chunks are accumulated on `data`;
on `end` it resolves `{ name, filename: info.filename, mimeType:
info.mimeType, buffer: Buffer.concat(chunks) }`; on `error` it
rejects. -/
def filePromise (name : String) (info : FileInfo)
    (chunks : List (List Nat)) (outcome : StreamEnd) :
    Except JsValue MultipartFormData :=
  match outcome with
  | StreamEnd.ended =>
      Except.ok
        { name := name
          filename := info.filename
          mimeType := info.mimeType
          buffer := bufferConcat chunks }
  | StreamEnd.errored e => Except.error e

/-- What one decoded part contributes to the `promises` array: the
`file` handler pushes one promise per file part; no handler is
registered for non-file fields, so they contribute nothing. -/
def partPromiseOf : Part → Option (Except JsValue MultipartFormData)
  | Part.file name info chunks outcome =>
      some (filePromise name info chunks outcome)
  | Part.field _ _ => none

end ReadMPF

/-- Embedding of `readMultipartFormData` (busboy-based): `null` when
`getContentType` rejects the header; otherwise one promise per file
part is collected, and on the decoder's `finish` event the result is
`Promise.all(promises)` (its rejection wrapped by `wrapError`), while a
decoder `error` event rejects directly. -/
def readMultipartFormData (req : MultipartRequest) : ExtractResult :=
  match ReadMPF.getContentType req.contentType with
  | none => ExtractResult.notApplicable
  | some _ =>
    let promises := req.parts.filterMap ReadMPF.partPromiseOf
    match req.bodyOutcome with
    | BodyOutcome.error e => ExtractResult.rejected e
    | BodyOutcome.finish =>
      match promiseAll promises with
      | Except.ok files => ExtractResult.resolved files
      | Except.error e => ExtractResult.rejected (wrapError e)

namespace GetMPF

/-- Embedding of `getContentType` in src/get-multipart-form-data.ts:
textually the same check as the busboy variant. -/
def getContentType (contentType : Option String) : Option String :=
  match contentType with
  | none => none
  | some ct =>
    if ct.data = [] then none
    else if ¬ (ct.data.head?.map Char.toNat = some 109) then none
    else if ¬ (listStartsWith ct.data mpfdToken = true) then none
    else some ct

/-- The promise pushed for one @fastify/busboy `file` event
(src/get-multipart-form-data.ts): the handler receives `fieldname`,
`filename` and `mimeType` positionally; on `end` it resolves `{ name:
fieldname, filename, mimeType, buffer: Buffer.concat(chunks) }`; on
`error` it rejects. -/
def filePromise (fieldname : String) (info : FileInfo)
    (chunks : List (List Nat)) (outcome : StreamEnd) :
    Except JsValue MultipartFormData :=
  match outcome with
  | StreamEnd.ended =>
      let name := fieldname
      Except.ok
        { name := name
          filename := info.filename
          mimeType := info.mimeType
          buffer := bufferConcat chunks }
  | StreamEnd.errored e => Except.error e

/-- What one decoded part contributes to the `promises` array (same
registration pattern as the busboy variant). -/
def partPromiseOf : Part → Option (Except JsValue MultipartFormData)
  | Part.file fieldname info chunks outcome =>
      some (filePromise fieldname info chunks outcome)
  | Part.field _ _ => none

end GetMPF

/-- Embedding of `getMultipartFormData` (@fastify/busboy-based): same
structure as `readMultipartFormData`; the `Busboy` constructor receives
the same headers with content-type overwritten by the value
`getContentType` already returned, so the decoder deliveries are the
same abstraction. -/
def getMultipartFormData (req : MultipartRequest) : ExtractResult :=
  match GetMPF.getContentType req.contentType with
  | none => ExtractResult.notApplicable
  | some _ =>
    let promises := req.parts.filterMap GetMPF.partPromiseOf
    match req.bodyOutcome with
    | BodyOutcome.error e => ExtractResult.rejected e
    | BodyOutcome.finish =>
      match promiseAll promises with
      | Except.ok files => ExtractResult.resolved files
      | Except.error e => ExtractResult.rejected (wrapError e)

/-! Component: Server-Sent-Events channel

`createServerSentEvent(res)` (src/create-server-sent-event.ts) works
against an Express `Response`.  The transport is embedded as its
capability flags (whether `flushHeaders` and `flush` exist) plus its
`closed` flag; each operation is embedded as the trace of calls it
performs on the transport. -/

/-- One observable call on the response transport. -/
inductive ResEvent where
  | setHeader (name value : String)
  | flushHeaders
  | write (chunk encoding : String)
  | flush
  | endRes
  deriving Repr, DecidableEq

/-- The transport as the channel observes it: optional `flushHeaders`
and `flush` capabilities and the `closed` flag. -/
structure SseTransport where
  hasFlushHeaders : Bool
  hasFlush : Bool
  closed : Bool
  deriving Repr, DecidableEq

/-- Trace of `createServerSentEvent`'s body before it returns: the four
`setHeader` calls in source order, then `res.flushHeaders?.()` when the
transport exposes it. -/
def openTrace (res : SseTransport) : List ResEvent :=
  [ResEvent.setHeader "Content-Type" "text/event-stream",
   ResEvent.setHeader "Cache-Control" "no-cache",
   ResEvent.setHeader "Connection" "keep-alive",
   ResEvent.setHeader "X-Accel-Buffering" "no"]
  ++ (if res.hasFlushHeaders then [ResEvent.flushHeaders] else [])

/-- Trace of `push(chunk)`: `res.write.call(res, chunk, 'utf8')` then
`res.flush?.()`. -/
def pushTrace (res : SseTransport) (chunk : String) : List ResEvent :=
  [ResEvent.write chunk "utf8"]
  ++ (if res.hasFlush then [ResEvent.flush] else [])

/-- JavaScript `s.split('\n')`, over character lists. -/
def jsSplitNl : List Char → List (List Char)
  | [] => [[]]
  | c :: cs =>
    match jsSplitNl cs with
    | [] => [[]]
    | l :: ls =>
      if c = '\n' then [] :: l :: ls
      else (c :: l) :: ls

/-- JavaScript `lines.join('\n')`, over character lists. -/
def joinNl : List (List Char) → List Char
  | [] => []
  | [l] => l
  | l :: ls => l ++ '\n' :: joinNl ls

/-- The comment string `pushComment(chunk)` builds:
`(chunk ? chunk.split('\n').map(line => ': ' + line).join('\n') : ':')
+ '\n\n'` (an empty string is falsy).  The string operations are
embedded character-wise so the result is computable. -/
def commentText (chunk : String) : String :=
  String.mk
    ((if chunk.data = [] then [':']
      else joinNl ((jsSplitNl chunk.data).map
        (fun line => ':' :: ' ' :: line)))
     ++ ['\n', '\n'])

/-- Trace of `pushComment(chunk)`: write the formatted comment with
utf8 encoding, then `res.flush?.()`. -/
def pushCommentTrace (res : SseTransport) (chunk : String) :
    List ResEvent :=
  [ResEvent.write (commentText chunk) "utf8"]
  ++ (if res.hasFlush then [ResEvent.flush] else [])

/-- Trace of `close()`: `res.end.bind(res)` invoked with no
arguments. -/
def closeTrace : List ResEvent :=
  [ResEvent.endRes]

/-- The object `createServerSentEvent` returns; `closed` is the field
`closed: res.closed`, a boolean value read from the transport once when
the object literal is built. -/
structure SseChannel where
  closed : Bool
  deriving Repr, DecidableEq

/-- Opening the channel: the returned object and the trace produced
while opening. -/
def createServerSentEvent (res : SseTransport) :
    SseChannel × List ResEvent :=
  ({ closed := res.closed }, openTrace res)

/-- Events that can happen after the channel is open: the caller uses
one of the channel's operations, or the transport's own closed flag
changes (e.g. the peer disconnects). -/
inductive ChannelOp where
  | push (chunk : String)
  | pushComment (chunk : String)
  | close
  | transportClosedChange (b : Bool)
  deriving Repr, DecidableEq

/-- Joint state of transport and channel object after open. -/
structure SseState where
  res : SseTransport
  channel : SseChannel
  deriving Repr, DecidableEq

/-- One step of channel usage.  `push`/`pushComment` write to the
transport (the channel object itself is a plain record and is not
reassigned); `close` ends the response, after which the transport's own
closed flag is set; `transportClosedChange` models the transport flag
changing underneath the channel. -/
def stepOp (s : SseState) : ChannelOp → SseState
  | ChannelOp.push _ => s
  | ChannelOp.pushComment _ => s
  | ChannelOp.close =>
      { s with res := { s.res with closed := true } }
  | ChannelOp.transportClosedChange b =>
      { s with res := { s.res with closed := b } }

/-- Run a sequence of post-open events from the freshly opened
state. -/
def runOps (res : SseTransport) (ops : List ChannelOp) : SseState :=
  ops.foldl stepOp { res := res, channel := (createServerSentEvent res).1 }

/-! Spec-side definitions

Definitions below follow the specification's words, for comparison with
the source embeddings above. -/

/-- Modelled from the spec: the chunk `pushComment(text)` must write —
`":\n\n"` when `text` is empty, otherwise the lines of `text` split on
newline, each prefixed with `": "`, rejoined with newline, followed by
`"\n\n"`. -/
def specCommentChunk (text : String) : String :=
  if text = "" then ":\n\n"
  else
    String.mk
      (joinNl ((jsSplitNl text.data).map
        (fun line => ':' :: ' ' :: line)) ++ ['\n', '\n'])

/-- The name/value pair a `setHeader` event carries, if any. -/
def headerOf : ResEvent → Option (String × String)
  | ResEvent.setHeader n v => some (n, v)
  | _ => none

/-- The chunk a `write` event carries, if any. -/
def writeChunkOf : ResEvent → Option String
  | ResEvent.write c _ => some c
  | _ => none

/-- Whether a part is a file part whose stream errored. -/
def isErroredFilePart : Part → Bool
  | Part.file _ _ _ (StreamEnd.errored _) => true
  | _ => false

/-- Spec-side projection: the file parts of a body in declaration
order, as (field name, info, chunks) triples. -/
def filePartsOf (parts : List Part) : List (String × FileInfo × List (List Nat)) :=
  parts.filterMap fun p =>
    match p with
    | Part.file n i cs _ => some (n, i, cs)
    | Part.field _ _ => none

/-- Spec-side record built from one file part: field name, declared
filename and MIME type, and the byte-wise concatenation of the chunks
in arrival order. -/
def specRecordOf (t : String × FileInfo × List (List Nat)) : MultipartFormData :=
  { name := t.1
    filename := t.2.1.filename
    mimeType := t.2.1.mimeType
    buffer := t.2.2.flatten }

/-! Theorems -/

/-- C1: for every schema and input the schema rejects, unsafe mode
(options absent or `safe` not true) throws an error whose message and
cause come from the schema failure, while safe mode returns the failure
outcome itself and never throws; this holds for both
`readValidatedQuery` and `readValidatedParams`. -/
theorem claim_C1_reject_modes {Q P C A : Type} (req : VRequest Q P)
    (qschema : ZodSchema Q C A) (pschema : ZodSchema P C A)
    (options : Option ValidateOptions) (e1 e2 : ZodError C)
    (hq : qschema.safeParse req.query = SafeParseResult.failure e1)
    (hp : pschema.safeParse req.params = SafeParseResult.failure e2) :
    (optSafe options = false →
      readValidatedQuery req qschema options =
        ValidateResult.thrown e1.message e1.cause ∧
      readValidatedParams req pschema options =
        ValidateResult.thrown e2.message e2.cause) ∧
    (optSafe options = true →
      readValidatedQuery req qschema options =
        ValidateResult.safeResult (SafeParseResult.failure e1) ∧
      readValidatedParams req pschema options =
        ValidateResult.safeResult (SafeParseResult.failure e2)) := by
  unfold readValidatedQuery readValidatedParams
  rw [hq, hp]
  constructor <;> intro h <;> simp [h]

/-- Witness for C1 at a concrete schema (accepts positive numbers) and
the rejected input 0, in both unsafe (`none`) and safe option forms. -/
theorem claim_C1_reject_modes_witness :
    (ZodSchema.mk fun n : Nat =>
        if 0 < n then SafeParseResult.success n
        else SafeParseResult.failure
          (ZodError.mk "Expected positive" ["too_small"])).safeParse 0 =
      SafeParseResult.failure
        (ZodError.mk "Expected positive" ["too_small"]) ∧
    ((optSafe none = false →
      readValidatedQuery (VRequest.mk 0 0)
          (ZodSchema.mk fun n : Nat =>
            if 0 < n then SafeParseResult.success n
            else SafeParseResult.failure
              (ZodError.mk "Expected positive" ["too_small"])) none =
        ValidateResult.thrown "Expected positive" ["too_small"] ∧
      readValidatedParams (VRequest.mk 0 0)
          (ZodSchema.mk fun n : Nat =>
            if 0 < n then SafeParseResult.success n
            else SafeParseResult.failure
              (ZodError.mk "Expected positive" ["too_small"])) none =
        ValidateResult.thrown "Expected positive" ["too_small"]) ∧
     (optSafe none = true →
      readValidatedQuery (VRequest.mk 0 0)
          (ZodSchema.mk fun n : Nat =>
            if 0 < n then SafeParseResult.success n
            else SafeParseResult.failure
              (ZodError.mk "Expected positive" ["too_small"])) none =
        ValidateResult.safeResult (SafeParseResult.failure
          (ZodError.mk "Expected positive" ["too_small"])) ∧
      readValidatedParams (VRequest.mk 0 0)
          (ZodSchema.mk fun n : Nat =>
            if 0 < n then SafeParseResult.success n
            else SafeParseResult.failure
              (ZodError.mk "Expected positive" ["too_small"])) none =
        ValidateResult.safeResult (SafeParseResult.failure
          (ZodError.mk "Expected positive" ["too_small"])))) :=
  ⟨by decide,
   claim_C1_reject_modes (VRequest.mk 0 0) _ _ none
     (ZodError.mk "Expected positive" ["too_small"])
     (ZodError.mk "Expected positive" ["too_small"])
     (by decide) (by decide)⟩

/-- C2: for every schema and input the schema accepts, unsafe mode
returns exactly the parsed value and safe mode returns the success
outcome carrying the identical value; for both `readValidatedQuery`
and `readValidatedParams`. -/
theorem claim_C2_accept_modes {Q P C A : Type} (req : VRequest Q P)
    (qschema : ZodSchema Q C A) (pschema : ZodSchema P C A)
    (options : Option ValidateOptions) (d1 d2 : A)
    (hq : qschema.safeParse req.query = SafeParseResult.success d1)
    (hp : pschema.safeParse req.params = SafeParseResult.success d2) :
    (optSafe options = false →
      readValidatedQuery req qschema options = ValidateResult.value d1 ∧
      readValidatedParams req pschema options = ValidateResult.value d2) ∧
    (optSafe options = true →
      readValidatedQuery req qschema options =
        ValidateResult.safeResult (SafeParseResult.success d1) ∧
      readValidatedParams req pschema options =
        ValidateResult.safeResult (SafeParseResult.success d2)) := by
  unfold readValidatedQuery readValidatedParams
  rw [hq, hp]
  constructor <;> intro h <;> simp [h]

/-- Witness for C2 at the same concrete schema and the accepted
input 7. -/
theorem claim_C2_accept_modes_witness :
    (ZodSchema.mk fun n : Nat =>
        if 0 < n then SafeParseResult.success n
        else SafeParseResult.failure
          (ZodError.mk "Expected positive" ["too_small"])).safeParse 7 =
      SafeParseResult.success 7 ∧
    ((optSafe none = false →
      readValidatedQuery (VRequest.mk 7 7)
          (ZodSchema.mk fun n : Nat =>
            if 0 < n then SafeParseResult.success n
            else SafeParseResult.failure
              (ZodError.mk "Expected positive" ["too_small"])) none =
        ValidateResult.value 7 ∧
      readValidatedParams (VRequest.mk 7 7)
          (ZodSchema.mk fun n : Nat =>
            if 0 < n then SafeParseResult.success n
            else SafeParseResult.failure
              (ZodError.mk "Expected positive" ["too_small"])) none =
        ValidateResult.value 7) ∧
     (optSafe none = true →
      readValidatedQuery (VRequest.mk 7 7)
          (ZodSchema.mk fun n : Nat =>
            if 0 < n then SafeParseResult.success n
            else SafeParseResult.failure
              (ZodError.mk "Expected positive" ["too_small"])) none =
        ValidateResult.safeResult (SafeParseResult.success 7) ∧
      readValidatedParams (VRequest.mk 7 7)
          (ZodSchema.mk fun n : Nat =>
            if 0 < n then SafeParseResult.success n
            else SafeParseResult.failure
              (ZodError.mk "Expected positive" ["too_small"])) none =
        ValidateResult.safeResult (SafeParseResult.success 7))) :=
  ⟨by decide,
   claim_C2_accept_modes (VRequest.mk 7 7) _ _ none 7 7
     (by decide) (by decide)⟩

/-- The comment string the source builds agrees with the spec's
formatting rule for every input. -/
theorem commentText_eq_spec (t : String) :
    commentText t = specCommentChunk t := by
  unfold commentText specCommentChunk
  by_cases h : t = ""
  · simp [h]
  · have hd : ¬ t.data = [] := fun hl => h (String.ext hl)
    simp [h, hd]

/-- C7: for every string, `pushComment` performs exactly one write,
whose chunk is `":\n\n"` for the empty string and otherwise the lines
of the text each prefixed with `": "`, rejoined with newline, followed
by `"\n\n"`; in particular `pushComment("heartbeat")` writes
`": heartbeat\n\n"` and `pushComment("a\nb")` writes
`": a\n: b\n\n"`. -/
theorem claim_C7_comment_framing (res : SseTransport) (text : String) :
    (pushCommentTrace res text).filterMap writeChunkOf =
      [specCommentChunk text] ∧
    specCommentChunk "" = ":\n\n" ∧
    specCommentChunk "heartbeat" = ": heartbeat\n\n" ∧
    specCommentChunk "a\nb" = ": a\n: b\n\n" := by
  refine ⟨?_, by decide, by decide, by decide⟩
  unfold pushCommentTrace
  cases h : res.hasFlush <;>
    simp [h, writeChunkOf, commentText_eq_spec]

/-- C8: opening a channel sets exactly the four named headers, each
once, in the fixed source order, with no write occurring during open,
and invokes `flushHeaders` if and only if the transport exposes it. -/
theorem claim_C8_open_headers (res : SseTransport) :
    (openTrace res).filterMap headerOf =
      [("Content-Type", "text/event-stream"),
       ("Cache-Control", "no-cache"),
       ("Connection", "keep-alive"),
       ("X-Accel-Buffering", "no")] ∧
    (openTrace res).take 4 =
      [ResEvent.setHeader "Content-Type" "text/event-stream",
       ResEvent.setHeader "Cache-Control" "no-cache",
       ResEvent.setHeader "Connection" "keep-alive",
       ResEvent.setHeader "X-Accel-Buffering" "no"] ∧
    (openTrace res).filterMap writeChunkOf = [] ∧
    ((ResEvent.flushHeaders ∈ openTrace res) ↔
      res.hasFlushHeaders = true) := by
  obtain ⟨fh, fl, cl⟩ := res
  cases fh <;> cases fl <;> cases cl <;> decide

/-- `stepOp` never reassigns the channel object. -/
theorem stepOp_channel (s : SseState) (op : ChannelOp) :
    (stepOp s op).channel = s.channel := by
  cases op <;> rfl

/-- Folding any sequence of post-open events leaves the channel object
unchanged. -/
theorem foldl_stepOp_channel (ops : List ChannelOp) (s : SseState) :
    (ops.foldl stepOp s).channel = s.channel := by
  induction ops generalizing s with
  | nil => rfl
  | cons op ops ih => rw [List.foldl_cons, ih, stepOp_channel]

/-- C9: the channel's `closed` field is a snapshot of the transport's
closed flag taken at open time: after any sequence of channel
operations and transport closed-flag changes it still equals the value
at open, even when the transport's own flag has meanwhile changed to
the opposite value. -/
theorem claim_C9_closed_snapshot (res : SseTransport)
    (ops : List ChannelOp) :
    (runOps res ops).channel.closed = res.closed ∧
    (runOps res ops).channel = (createServerSentEvent res).1 ∧
    (runOps res [ChannelOp.transportClosedChange (!res.closed)]).res.closed
      = (!res.closed) ∧
    (runOps res [ChannelOp.transportClosedChange (!res.closed)]).channel.closed
      = res.closed := by
  refine ⟨?_, ?_, rfl, rfl⟩ <;>
    simp [runOps, foldl_stepOp_channel, createServerSentEvent]

/-! Multipart helper lemmas -/

/-- The comparison token starts with the character `m`. -/
theorem mpfdToken_eq : mpfdToken = 'm' :: "ultipart/form-data".data := rfl

/-- A character list that starts with the multipart token is nonempty
and its first character has code point 109: the source's extra
`charCodeAt(0) !== 109` guard can never fire when the
`startsWith` guard would pass. -/
theorem listStartsWith_mpfd_head {l : List Char}
    (h : listStartsWith l mpfdToken = true) :
    l ≠ [] ∧ l.head?.map Char.toNat = some 109 := by
  cases l with
  | nil => exact absurd h (by decide)
  | cons c cs =>
    rw [mpfdToken_eq] at h
    unfold listStartsWith at h
    obtain ⟨hc, -⟩ := Bool.and_eq_true_iff.mp h
    have hcm : c = 'm' := eq_of_beq hc
    subst hcm
    exact ⟨by simp, rfl⟩

/-- `getContentType` passes a header that starts with the token
through unchanged. -/
theorem getContentType_pass (ct : String)
    (hs : listStartsWith ct.data mpfdToken = true) :
    ReadMPF.getContentType (some ct) = some ct := by
  obtain ⟨hne, hhead⟩ := listStartsWith_mpfd_head hs
  unfold ReadMPF.getContentType
  simp [hne, hhead, hs]

/-- `getContentType` rejects a header that does not start with the
token. -/
theorem getContentType_reject (ct : String)
    (hs : ¬ listStartsWith ct.data mpfdToken = true) :
    ReadMPF.getContentType (some ct) = none := by
  show (if ct.data = [] then none
    else if ¬ (ct.data.head?.map Char.toNat = some 109) then none
    else if ¬ (listStartsWith ct.data mpfdToken = true) then none
    else some ct) = none
  split_ifs <;> rfl

/-- The two files' `getContentType` helpers are the same function. -/
theorem getContentType_agree :
    GetMPF.getContentType = ReadMPF.getContentType := rfl

/-- The two files' per-file-part promises are the same function. -/
theorem filePromise_agree : GetMPF.filePromise = ReadMPF.filePromise := by
  funext n i cs oc
  cases oc <;> rfl

/-- `Promise.all` over a list of fulfilled promises resolves with their
values. -/
theorem promiseAll_map_ok (vs : List MultipartFormData) :
    promiseAll (vs.map Except.ok) = Except.ok vs := by
  induction vs with
  | nil => rfl
  | cons v vs ih => simp [promiseAll, ih]

/-- If any promise in the list is rejected, `Promise.all` rejects. -/
theorem promiseAll_error_of_mem
    {l : List (Except JsValue MultipartFormData)} {e : JsValue}
    (h : Except.error e ∈ l) :
    ∃ e', promiseAll l = Except.error e' := by
  induction l with
  | nil => cases h
  | cons p ps ih =>
    cases p with
    | error e0 => exact ⟨e0, rfl⟩
    | ok v =>
      have hmem : Except.error e ∈ ps := by
        cases h with
        | tail _ h' => exact h'
      obtain ⟨e', he⟩ := ih hmem
      exact ⟨e', by simp [promiseAll, he]⟩

/-- When every file part's stream ends normally, the collected promise
list is exactly the fulfilled record per file part, in declaration
order, with non-file fields contributing nothing. -/
theorem parts_promises_all_ok (parts : List Part)
    (h : ∀ p ∈ parts, isErroredFilePart p = false) :
    parts.filterMap GetMPF.partPromiseOf =
      ((filePartsOf parts).map specRecordOf).map Except.ok := by
  induction parts with
  | nil => rfl
  | cons p ps ih =>
    have hps : ∀ q ∈ ps, isErroredFilePart q = false :=
      fun q hq => h q (List.mem_cons_of_mem _ hq)
    have hp := h p (List.mem_cons_self _ _)
    cases p with
    | field n v =>
      simpa [filePartsOf, GetMPF.partPromiseOf] using ih hps
    | file n i cs oc =>
      cases oc with
      | ended =>
        simp [filePartsOf, GetMPF.partPromiseOf, GetMPF.filePromise,
          specRecordOf, bufferConcat, ih hps]
      | errored e => simp [isErroredFilePart] at hp

/-- An errored file part puts a rejected promise into the collected
list. -/
theorem errored_part_promise_mem {parts : List Part} {p : Part}
    (hmem : p ∈ parts) (herr : isErroredFilePart p = true) :
    ∃ e, Except.error e ∈ parts.filterMap GetMPF.partPromiseOf := by
  cases p with
  | field n v => simp [isErroredFilePart] at herr
  | file n i cs oc =>
    cases oc with
    | ended => simp [isErroredFilePart] at herr
    | errored e =>
      exact ⟨e, List.mem_filterMap.mpr ⟨_, hmem, rfl⟩⟩

/-- When `getContentType` rejects the header the extractor returns the
sentinel, whatever the body would have delivered. -/
theorem getMPF_none (co : Option String) (parts : List Part)
    (bo : BodyOutcome) (h : GetMPF.getContentType co = none) :
    getMultipartFormData (MultipartRequest.mk co parts bo)
      = ExtractResult.notApplicable := by
  unfold getMultipartFormData
  simp only [h]

/-- When the extractor is applicable its result is never the
`notApplicable` sentinel. -/
theorem getMPF_applicable_shape {req : MultipartRequest} {ct : String}
    (h : GetMPF.getContentType req.contentType = some ct) :
    getMultipartFormData req ≠ ExtractResult.notApplicable := by
  unfold getMultipartFormData
  rw [h]
  simp only
  split
  · simp
  · split <;> simp

/-- Inversion of a resolved extraction: the decoder finished, no file
part errored, and the files are the per-file-part records in
declaration order. -/
theorem getMPF_resolved_inv {req : MultipartRequest}
    {files : List MultipartFormData}
    (h : getMultipartFormData req = ExtractResult.resolved files) :
    req.bodyOutcome = BodyOutcome.finish ∧
    (∀ p ∈ req.parts, isErroredFilePart p = false) ∧
    files = (filePartsOf req.parts).map specRecordOf := by
  unfold getMultipartFormData at h
  cases hct : GetMPF.getContentType req.contentType with
  | none => rw [hct] at h; simp only at h; cases h
  | some ct =>
    rw [hct] at h
    simp only at h
    cases hb : req.bodyOutcome with
    | error e => rw [hb] at h; simp only at h; cases h
    | finish =>
      rw [hb] at h
      simp only at h
      cases hp : promiseAll (req.parts.filterMap GetMPF.partPromiseOf) with
      | error e => rw [hp] at h; simp only at h; cases h
      | ok fs =>
        rw [hp] at h
        simp only at h
        injection h with hfs
        subst hfs
        have herr : ∀ p ∈ req.parts, isErroredFilePart p = false := by
          intro p hpmem
          by_contra hcc
          rw [Bool.not_eq_false] at hcc
          obtain ⟨e, hmem⟩ := errored_part_promise_mem hpmem hcc
          obtain ⟨e', he⟩ := promiseAll_error_of_mem hmem
          rw [he] at hp
          cases hp
        have hall := parts_promises_all_ok req.parts herr
        rw [hall, promiseAll_map_ok] at hp
        injection hp with hfs2
        exact ⟨rfl, herr, hfs2.symm⟩

/-! Multipart claims -/

/-- C3: the extractors return the `notApplicable` sentinel exactly when
the content-type header is absent or does not start with
`multipart/form-data` — the extra first-character code-point guard
never changes the decision — and in that case the result is the same
for every body, i.e. the body stream is never consumed; when the header
does start with the token, the extractors proceed past the check. -/
theorem claim_C3_applicability (req : MultipartRequest) :
    (getMultipartFormData req = ExtractResult.notApplicable ↔
      ¬ ∃ ct, req.contentType = some ct ∧
        listStartsWith ct.data mpfdToken = true) ∧
    (readMultipartFormData req = ExtractResult.notApplicable ↔
      ¬ ∃ ct, req.contentType = some ct ∧
        listStartsWith ct.data mpfdToken = true) ∧
    ((¬ ∃ ct, req.contentType = some ct ∧
        listStartsWith ct.data mpfdToken = true) →
      ∀ parts bo,
        getMultipartFormData (MultipartRequest.mk req.contentType parts bo)
          = ExtractResult.notApplicable) := by
  have key : ∀ (co : Option String) (parts : List Part) (bo : BodyOutcome),
      (getMultipartFormData (MultipartRequest.mk co parts bo)
          = ExtractResult.notApplicable ↔
        ¬ ∃ ct, co = some ct ∧
          listStartsWith ct.data mpfdToken = true) := by
    intro co parts bo
    cases co with
    | none =>
      constructor
      · rintro - ⟨ct, hct, -⟩
        cases hct
      · intro _h
        exact getMPF_none none parts bo rfl
    | some ct =>
      by_cases hs : listStartsWith ct.data mpfdToken = true
      · constructor
        · intro h
          have hct : GetMPF.getContentType
              (MultipartRequest.mk (some ct) parts bo).contentType
                = some ct := by
            rw [getContentType_agree]
            exact getContentType_pass ct hs
          exact absurd h (getMPF_applicable_shape hct)
        · intro hno
          exact absurd ⟨ct, rfl, hs⟩ hno
      · constructor
        · rintro - ⟨ct', hct', hs'⟩
          rw [Option.some.injEq] at hct'
          subst hct'
          exact hs hs'
        · intro _h
          refine getMPF_none (some ct) parts bo ?_
          rw [getContentType_agree]
          exact getContentType_reject ct hs
  have hsame : readMultipartFormData req = getMultipartFormData req := rfl
  refine ⟨?_, ?_, ?_⟩
  · exact key req.contentType req.parts req.bodyOutcome
  · rw [hsame]
    exact key req.contentType req.parts req.bodyOutcome
  · intro hno parts bo
    exact (key req.contentType parts bo).mpr hno

/-- Witness for C3: a JSON request is not applicable, and this does not
depend on what the decoder would deliver. -/
theorem claim_C3_applicability_witness :
    getMultipartFormData
        (MultipartRequest.mk (some "application/json")
          [Part.file "f" (FileInfo.mk "a.txt" "text/plain") [[1]]
            StreamEnd.ended]
          BodyOutcome.finish)
      = ExtractResult.notApplicable :=
  (claim_C3_applicability
      (MultipartRequest.mk (some "application/json")
        [Part.file "f" (FileInfo.mk "a.txt" "text/plain") [[1]]
          StreamEnd.ended]
        BodyOutcome.finish)).1.mpr
    (by
      rintro ⟨ct, hct, hs⟩
      rw [Option.some.injEq] at hct
      subst hct
      exact absurd hs (by decide))

/-- C4: every record of a resolved extraction carries exactly the
concatenation, in arrival order, of the byte chunks received for its
file part, and its length is the total byte count received — no
truncation, no decoding. -/
theorem claim_C4_content_fidelity {req : MultipartRequest}
    {files : List MultipartFormData}
    (h : getMultipartFormData req = ExtractResult.resolved files) :
    List.Forall₂
      (fun t r =>
        r.buffer = bufferConcat t.2.2 ∧
        r.buffer.length = (t.2.2.map List.length).sum)
      (filePartsOf req.parts) files := by
  obtain ⟨-, -, hf⟩ := getMPF_resolved_inv h
  subst hf
  rw [List.forall₂_map_right_iff, List.forall₂_same]
  intro t _ht
  exact ⟨rfl, List.length_flatten _⟩

/-- Witness for C4: a part whose chunks hold the bytes
`0x00, 0xFF, 0x0A, 0x0D` round-trips byte-for-byte. -/
theorem claim_C4_content_fidelity_witness :
    getMultipartFormData
        (MultipartRequest.mk (some "multipart/form-data; boundary=x")
          [Part.file "bin" (FileInfo.mk "data.bin" "application/octet-stream")
            [[0], [255, 10], [13]] StreamEnd.ended]
          BodyOutcome.finish)
      = ExtractResult.resolved
        [MultipartFormData.mk "bin" "data.bin" "application/octet-stream"
          [0, 255, 10, 13]] ∧
    List.Forall₂
      (fun t r =>
        r.buffer = bufferConcat t.2.2 ∧
        r.buffer.length = (t.2.2.map List.length).sum)
      (filePartsOf
        [Part.file "bin" (FileInfo.mk "data.bin" "application/octet-stream")
          [[0], [255, 10], [13]] StreamEnd.ended])
      [MultipartFormData.mk "bin" "data.bin" "application/octet-stream"
        [0, 255, 10, 13]] :=
  ⟨by decide,
   @claim_C4_content_fidelity
     (MultipartRequest.mk (some "multipart/form-data; boundary=x")
       [Part.file "bin" (FileInfo.mk "data.bin" "application/octet-stream")
         [[0], [255, 10], [13]] StreamEnd.ended]
       BodyOutcome.finish)
     [MultipartFormData.mk "bin" "data.bin" "application/octet-stream"
       [0, 255, 10, 13]]
     (by decide)⟩

/-- C5: a resolved extraction implies the decoder reported the body
exhausted and every file-part stream settled normally, and the file
list is exactly one record per file part in declaration order, with
non-file fields contributing nothing. -/
theorem claim_C5_completion_order {req : MultipartRequest}
    {files : List MultipartFormData}
    (h : getMultipartFormData req = ExtractResult.resolved files) :
    req.bodyOutcome = BodyOutcome.finish ∧
    (∀ p ∈ req.parts, isErroredFilePart p = false) ∧
    files = (filePartsOf req.parts).map specRecordOf :=
  getMPF_resolved_inv h

/-- Witness for C5: one non-file field between two file parts yields
exactly the two file records, in declaration order. -/
theorem claim_C5_completion_order_witness :
    getMultipartFormData
        (MultipartRequest.mk (some "multipart/form-data; boundary=b")
          [Part.file "a" (FileInfo.mk "a.txt" "text/plain")
            [[97]] StreamEnd.ended,
           Part.field "text" "some value",
           Part.file "b" (FileInfo.mk "b.json" "application/json")
            [[123], [125]] StreamEnd.ended]
          BodyOutcome.finish)
      = ExtractResult.resolved
        [MultipartFormData.mk "a" "a.txt" "text/plain" [97],
         MultipartFormData.mk "b" "b.json" "application/json" [123, 125]] ∧
    ([MultipartFormData.mk "a" "a.txt" "text/plain" [97],
      MultipartFormData.mk "b" "b.json" "application/json" [123, 125]]
      = (filePartsOf
          [Part.file "a" (FileInfo.mk "a.txt" "text/plain")
            [[97]] StreamEnd.ended,
           Part.field "text" "some value",
           Part.file "b" (FileInfo.mk "b.json" "application/json")
            [[123], [125]] StreamEnd.ended]).map specRecordOf) :=
  ⟨by decide,
   (@claim_C5_completion_order
     (MultipartRequest.mk (some "multipart/form-data; boundary=b")
       [Part.file "a" (FileInfo.mk "a.txt" "text/plain")
         [[97]] StreamEnd.ended,
        Part.field "text" "some value",
        Part.file "b" (FileInfo.mk "b.json" "application/json")
         [[123], [125]] StreamEnd.ended]
       BodyOutcome.finish)
     [MultipartFormData.mk "a" "a.txt" "text/plain" [97],
      MultipartFormData.mk "b" "b.json" "application/json" [123, 125]]
     (by decide)).2.2⟩

/-- C6: for an applicable request in which the decoder reports a
malformed body or any file-part stream errors, the extractor rejects
(a single rejection) and never resolves with a partial list. -/
theorem claim_C6_failure_propagation {req : MultipartRequest}
    {ct : String}
    (happ : req.contentType = some ct ∧
      listStartsWith ct.data mpfdToken = true)
    (hfail : (∃ e, req.bodyOutcome = BodyOutcome.error e) ∨
      (∃ p ∈ req.parts, isErroredFilePart p = true)) :
    (∃ e, getMultipartFormData req = ExtractResult.rejected e) ∧
    (∀ files, getMultipartFormData req ≠ ExtractResult.resolved files) := by
  obtain ⟨hco, hs⟩ := happ
  have hct : GetMPF.getContentType req.contentType = some ct := by
    rw [hco, getContentType_agree]
    exact getContentType_pass ct hs
  have main : ∃ e, getMultipartFormData req = ExtractResult.rejected e := by
    unfold getMultipartFormData
    rw [hct]
    simp only
    cases hfail with
    | inl hb =>
      obtain ⟨e, hb⟩ := hb
      rw [hb]
      exact ⟨e, rfl⟩
    | inr hp =>
      obtain ⟨p, hpm, herr⟩ := hp
      obtain ⟨e, hmem⟩ := errored_part_promise_mem hpm herr
      obtain ⟨e', he⟩ := promiseAll_error_of_mem hmem
      cases hbo : req.bodyOutcome with
      | error e0 => exact ⟨e0, rfl⟩
      | finish =>
        simp only
        rw [he]
        exact ⟨wrapError e', rfl⟩
  refine ⟨main, ?_⟩
  obtain ⟨e, hre⟩ := main
  intro files hres
  rw [hre] at hres
  cases hres

/-- Witness for C6: a single file part whose stream errors makes the
whole extraction reject. -/
theorem claim_C6_failure_propagation_witness :
    (some "multipart/form-data; boundary=b" =
        some "multipart/form-data; boundary=b" ∧
      listStartsWith "multipart/form-data; boundary=b".data mpfdToken
        = true) ∧
    (∃ p ∈ [Part.file "f" (FileInfo.mk "x.bin" "application/octet-stream")
        [[1, 2]] (StreamEnd.errored (JsValue.errorObj "stream error"))],
      isErroredFilePart p = true) ∧
    ((∃ e, getMultipartFormData
        (MultipartRequest.mk (some "multipart/form-data; boundary=b")
          [Part.file "f" (FileInfo.mk "x.bin" "application/octet-stream")
            [[1, 2]] (StreamEnd.errored (JsValue.errorObj "stream error"))]
          BodyOutcome.finish)
        = ExtractResult.rejected e) ∧
     (∀ files, getMultipartFormData
        (MultipartRequest.mk (some "multipart/form-data; boundary=b")
          [Part.file "f" (FileInfo.mk "x.bin" "application/octet-stream")
            [[1, 2]] (StreamEnd.errored (JsValue.errorObj "stream error"))]
          BodyOutcome.finish)
        ≠ ExtractResult.resolved files)) :=
  ⟨⟨rfl, by decide⟩, by decide,
   claim_C6_failure_propagation ⟨rfl, by decide⟩ (Or.inr (by decide))⟩

/-- C10: the two extractor implementations are behaviorally
equivalent — given the same header and the same decoder deliveries
they produce identical results, so they agree on applicability, on the
resolved record sequences, and on rejection; their header checks and
per-part promises are the same functions. -/
theorem claim_C10_equivalence (req : MultipartRequest) :
    readMultipartFormData req = getMultipartFormData req ∧
    ReadMPF.getContentType = GetMPF.getContentType ∧
    ReadMPF.partPromiseOf = GetMPF.partPromiseOf := by
  refine ⟨rfl, rfl, ?_⟩
  funext p
  cases p with
  | file n i cs oc => cases oc <;> rfl
  | field n v => rfl

end ExpressUtils
